import Mathlib

/-!
Verification of the Research-Paper-To-Blog pipeline (src/app.py).

The program is a single-file orchestration script.  Its pure algorithmic
content — PDF page-text accumulation, text chunking via langchain's
`CharacterTextSplitter(separator="\n", chunk_size=1000, chunk_overlap=200,
length_function=len)`, and the upload-handler control flow — is embedded
below as executable Lean definitions.  External collaborators (PyMuPDF,
the embedding model, the FAISS index, the Groq LLM) are modelled as opaque
outcome parameters: the embedding records exactly which calls the script
makes and how their results and failures flow through the handler.
-/

namespace PaperBlog

/-! ## Python string splitting (re.split on the fixed one-character separator) -/

/-- Python `re.split(sep, text)` for the fixed one-character separator used by
the app (`"\n"`), expressed on the character list of the text.  An input with
no separator yields a single group; a trailing separator yields a trailing
empty group, exactly as in Python. -/
def splitOnChar (c : Char) : List Char → List (List Char)
  | [] => [[]]
  | a :: rest =>
    if a = c then [] :: splitOnChar c rest
    else
      match splitOnChar c rest with
      | [] => [[a]]
      | g :: gs => (a :: g) :: gs

/-- Python `re.split(c, text)` on a string, for a one-character separator. -/
def pySplit (c : Char) (s : String) : List String :=
  (splitOnChar c s.data).map String.mk

/-- langchain `_split_text_with_regex(text, separator, keep_separator=False)`:
split on the separator and drop empty fragments
(`[s for s in splits if s != ""]`). -/
def split_text_with_regex (c : Char) (text : String) : List String :=
  (pySplit c text).filter (fun s => s != "")

/-! ## Python `sep.join` and `str.strip` -/

/-- Python `sep.join(docs)`. -/
def joinSep (sep : String) : List String → String
  | [] => ""
  | [x] => x
  | x :: y :: l => x ++ sep ++ joinSep sep (y :: l)

/-- Length of `sep.join(docs)` when the separator has length `sl`:
the sum of the fragment lengths plus one separator between neighbours. -/
def joinLen (sl : Nat) : List String → Nat
  | [] => 0
  | [x] => x.length
  | x :: y :: l => x.length + sl + joinLen sl (y :: l)

/-- Python `s.strip()`: remove leading and trailing whitespace characters. -/
def pyStrip (s : String) : String :=
  String.mk (((s.data.dropWhile Char.isWhitespace).reverse.dropWhile
    Char.isWhitespace).reverse)

/-- langchain `TextSplitter._join_docs(docs, separator)` with the default
`strip_whitespace=True`: join, strip, and drop the chunk when it strips to
the empty string. -/
def join_docs (sep : String) (docs : List String) : Option String :=
  if pyStrip (joinSep sep docs) = "" then none
  else some (pyStrip (joinSep sep docs))

/-! ## langchain `TextSplitter._merge_splits` -/

/-- The inner `while` loop of `_merge_splits`: keep dropping the front
fragment of `current_doc` (and its separator contribution from `total`)
while `total > chunk_overlap`, or while the incoming fragment of length
`dl` would still not fit and `total > 0`.  In the source the loop runs
inside `if len(current_doc) > 0`, so the empty-list state always has
`total = 0` and the loop condition is false there. -/
def popDocs (cs co sl dl : Nat) : List String → Nat → List String × Nat
  | [], total => ([], total)
  | x :: rest, total =>
    if co < total ∨ (cs < total + dl + sl ∧ 0 < total) then
      popDocs cs co sl dl rest (total - (x.length + if rest = [] then 0 else sl))
    else (x :: rest, total)

/-- `docs.append(doc)` guarded by `_join_docs` returning a value. -/
def emitJoin (sep : String) (docs tail : List String) : List String :=
  match join_docs sep docs with
  | some doc => doc :: tail
  | none => tail

/-- langchain `TextSplitter._merge_splits(splits, separator)` with
`chunk_size = cs`, `chunk_overlap = co`, `length_function = len`.
State: `cd` is `current_doc`, the second argument is `total`, the third is
the remaining fragments.  On each fragment `d`: if it would overflow the
chunk size, the current chunk is joined and emitted, then the front of
`current_doc` is popped down to the overlap budget; in every case `d` is
appended to `current_doc`.  At the end the final `current_doc` is joined
and emitted. -/
def merge_splits (cs co : Nat) (sep : String) :
    List String → Nat → List String → List String
  | cd, _, [] => emitJoin sep cd []
  | cd, total, d :: ds =>
    if cs < total + d.length + (if cd = [] then 0 else sep.length) then
      match cd with
      | [] => merge_splits cs co sep [d] (total + d.length) ds
      | x :: xs =>
        emitJoin sep (x :: xs)
          (merge_splits cs co sep
            ((popDocs cs co sep.length d.length (x :: xs) total).1 ++ [d])
            ((popDocs cs co sep.length d.length (x :: xs) total).2 + d.length +
              (if (popDocs cs co sep.length d.length (x :: xs) total).1 = []
                then 0 else sep.length))
            ds)
    else
      merge_splits cs co sep (cd ++ [d])
        (total + d.length + (if cd = [] then 0 else sep.length)) ds

/-- `get_text_chunks(text)` from src/app.py:
`CharacterTextSplitter(separator="\n", chunk_size=1000, chunk_overlap=200,
length_function=len).split_text(text)`, which splits on the literal
separator, drops empty fragments, and merges with
`_merge_splits(splits, "\n")`. -/
def get_text_chunks (text : String) : List String :=
  merge_splits 1000 200 "\n" [] 0 (split_text_with_regex '\n' text)

/-! ## Instrumented merge: the same control flow, recording each emitted
chunk as its fragment window together with the fragment overlap retained
for the next chunk.  `merge_splits` is recovered from this trace by joining
each window (proved below). -/

/-- Instrumented `_merge_splits`: identical recursion and state to
`merge_splits` (with `sl` for `sep.length`), but each emitted chunk is
recorded as the pair (fragment window, fragments retained as overlap for
the next chunk) instead of being joined into a string. -/
def merge_docs_trace (cs co sl : Nat) :
    List String → Nat → List String → List (List String × List String)
  | cd, _, [] =>
    match cd with
    | [] => []
    | x :: xs => [(x :: xs, [])]
  | cd, total, d :: ds =>
    if cs < total + d.length + (if cd = [] then 0 else sl) then
      match cd with
      | [] => merge_docs_trace cs co sl [d] (total + d.length) ds
      | x :: xs =>
        (x :: xs, (popDocs cs co sl d.length (x :: xs) total).1) ::
          merge_docs_trace cs co sl
            ((popDocs cs co sl d.length (x :: xs) total).1 ++ [d])
            ((popDocs cs co sl d.length (x :: xs) total).2 + d.length +
              (if (popDocs cs co sl d.length (x :: xs) total).1 = []
                then 0 else sl))
            ds
    else
      merge_docs_trace cs co sl (cd ++ [d])
        (total + d.length + (if cd = [] then 0 else sl)) ds

/-- The chunk trace of the app's splitter configuration. -/
def chunk_trace (text : String) : List (List String × List String) :=
  merge_docs_trace 1000 200 1 [] 0 (split_text_with_regex '\n' text)

/-- Concatenate the fragment windows of a trace with each window's retained
overlap removed: the first window in full, every later window minus the
overlap fragments it inherited from its predecessor. -/
def reconstructFrom (r : List String) :
    List (List String × List String) → List String
  | [] => []
  | p :: rest => p.1.drop r.length ++ reconstructFrom p.2 rest

/-! ## PDF text extraction (src/app.py `get_pdf_text`) -/

/-- The outcome of handing a file path to PyMuPDF: either `fitz.open`
raises, or it yields a document whose pages each either return their text
or raise from `page.get_text()` (`none`). -/
inductive PdfSource
  | openFail
  | doc (pages : List (Option String))

/-- Ordered concatenation of a list of strings. -/
def concatAll : List String → String
  | [] => ""
  | t :: ts => t ++ concatAll ts

/-- The `for page in doc: text += page.get_text()` loop of `get_pdf_text`,
with `acc` the accumulated `text`.  A raising page aborts the loop: the
exception is caught, the error is reported (second component), and the
text accumulated so far is returned. -/
def extract_pages (acc : String) : List (Option String) → String × List String
  | [] => (acc, [])
  | some t :: rest => extract_pages (acc ++ t) rest
  | none :: _ => (acc, ["Error extracting text from PDF."])

/-- `get_pdf_text(pdf_file_path)` from src/app.py: `text = ""`, then append
every page's text inside a `try`; any exception is caught, reported via
`st.error` (modelled as the returned error-message list), and the `text`
accumulated so far is returned. -/
def get_pdf_text : PdfSource → String × List String
  | PdfSource.openFail => ("", ["Error extracting text from PDF."])
  | PdfSource.doc pages => extract_pages "" pages

/-! ## Vectorstore, LLM configuration, and the upload handler -/

/-- The user-facing message emitted by `get_vectorstore` on failure. -/
def embeddingErrorMsg : String :=
  "Failed to load embedding model. Please check your HuggingFace token and internet connection."

/-- `get_vectorstore(chunks)` from src/app.py: loading the embedding model
and building the FAISS index either succeeds (modelled by `embeddingOk`),
returning an index over exactly the given chunks, or raises; the exception
is caught, an error is reported, and `None` is returned. -/
def get_vectorstore (embeddingOk : Bool) (chunks : List String) :
    Option (List String) × List String :=
  if embeddingOk then (some chunks, []) else (none, [embeddingErrorMsg])

/-- The ChatGroq client configuration built in the summarization block. -/
structure LlmConfig where
  model_name : String
  temperature : ℚ
  request_timeout : Nat
deriving DecidableEq

/-- The fixed client configuration from src/app.py lines 131-135. -/
def groqConfig : LlmConfig :=
  { model_name := "meta-llama/llama-4-scout-17b-16e-instruct"
    temperature := (7 : ℚ) / 10
    request_timeout := 30 }

/-- A file offered through `st.download_button`. -/
structure DownloadFile where
  name : String
  mime : String
  content : String
deriving DecidableEq

/-- The opaque environment of one upload run: what PyMuPDF does with the
uploaded file, whether the embedding model loads, and what the
`qa_chain.invoke` call produces (`none` models an exception inside the
summarization `try` block; `some s` models a returned `response["result"]`,
possibly the empty string). -/
structure Env where
  pdf : PdfSource
  embeddingOk : Bool
  llmResponse : Option String

/-- Everything observable about one run of the upload handler. -/
structure RunResult where
  errors : List String
  raw_text : String
  chunking_called : Bool
  text_chunks : List String
  indexing_called : Bool
  vectorstore : Option (List String)
  summarization_called : Bool
  llm_config : Option LlmConfig
  queries : List String
  blog_summary : Option String
  displayed : Option String
  download : Option DownloadFile

/-- The upload-triggered run of src/app.py lines 108-153.  Extraction runs
first; empty text reports "No text could be extracted from the PDF." and
stops.  Otherwise the text is chunked and indexed; a `None` vectorstore
stops before summarization.  Otherwise one query — the entire extracted
text — is issued through the ChatGroq client; an exception reports an
error and leaves `blog_summary = None`.  The summary is displayed and
offered for download as `summary.txt` (`text/plain`, verbatim content)
exactly when `blog_summary` is truthy, i.e. neither `None` nor `""`. -/
def upload_handler (env : Env) : RunResult :=
  let ex := get_pdf_text env.pdf
  if ex.1 = "" then
    { errors := ex.2 ++ ["No text could be extracted from the PDF."]
      raw_text := ex.1
      chunking_called := false
      text_chunks := []
      indexing_called := false
      vectorstore := none
      summarization_called := false
      llm_config := none
      queries := []
      blog_summary := none
      displayed := none
      download := none }
  else
    let chunks := get_text_chunks ex.1
    let vs := get_vectorstore env.embeddingOk chunks
    match vs.1 with
    | none =>
      { errors := ex.2 ++ vs.2
        raw_text := ex.1
        chunking_called := true
        text_chunks := chunks
        indexing_called := true
        vectorstore := none
        summarization_called := false
        llm_config := none
        queries := []
        blog_summary := none
        displayed := none
        download := none }
    | some store =>
      match env.llmResponse with
      | none =>
        { errors := ex.2 ++ vs.2 ++ ["Error generating summary."]
          raw_text := ex.1
          chunking_called := true
          text_chunks := chunks
          indexing_called := true
          vectorstore := some store
          summarization_called := true
          llm_config := some groqConfig
          queries := [ex.1]
          blog_summary := none
          displayed := none
          download := none }
      | some s =>
        { errors := ex.2 ++ vs.2
          raw_text := ex.1
          chunking_called := true
          text_chunks := chunks
          indexing_called := true
          vectorstore := some store
          summarization_called := true
          llm_config := some groqConfig
          queries := [ex.1]
          blog_summary := some s
          displayed := if s = "" then none else some s
          download := if s = "" then none
            else some { name := "summary.txt", mime := "text/plain", content := s } }

end PaperBlog

namespace PaperBlog

/-! ## Basic string lemmas -/

theorem dropWhile_len_le (p : Char → Bool) (l : List Char) :
    (l.dropWhile p).length ≤ l.length := by
  induction l with
  | nil => simp [List.dropWhile]
  | cons a l ih =>
    by_cases h : p a
    · simp only [List.dropWhile, h]
      exact Nat.le_trans ih (Nat.le_succ _)
    · simp [List.dropWhile, h]

theorem pyStrip_length_le (s : String) : (pyStrip s).length ≤ s.length := by
  unfold pyStrip
  rw [String.length_mk]
  calc (((s.data.dropWhile Char.isWhitespace).reverse.dropWhile
        Char.isWhitespace).reverse).length
      = ((s.data.dropWhile Char.isWhitespace).reverse.dropWhile
        Char.isWhitespace).length := List.length_reverse _
    _ ≤ (s.data.dropWhile Char.isWhitespace).reverse.length :=
        dropWhile_len_le _ _
    _ = (s.data.dropWhile Char.isWhitespace).length := List.length_reverse _
    _ ≤ s.data.length := dropWhile_len_le _ _
    _ = s.length := rfl

theorem joinSep_length (sep : String) :
    ∀ l : List String, (joinSep sep l).length = joinLen sep.length l
  | [] => rfl
  | [x] => rfl
  | x :: y :: l => by
    have ih := joinSep_length sep (y :: l)
    simp only [joinSep, joinLen, String.length_append, ih]

theorem str_ne_len_pos (s : String) (h : s ≠ "") : 0 < s.length := by
  cases s with
  | mk data =>
    cases data with
    | nil => exact absurd rfl h
    | cons a l => simp [String.length]

theorem joinLen_append_one (sl : Nat) :
    ∀ (l : List String) (d : String),
      joinLen sl (l ++ [d]) = joinLen sl l + d.length + (if l = [] then 0 else sl)
  | [], d => by simp [joinLen]
  | [x], d => by simp [joinLen]; omega
  | x :: y :: l, d => by
    have ih := joinLen_append_one sl (y :: l) d
    have h2 : (y :: l) ++ [d] = y :: (l ++ [d]) := rfl
    rw [h2] at ih
    show joinLen sl (x :: y :: (l ++ [d])) = _
    simp only [joinLen, if_neg (List.cons_ne_nil y l),
      if_neg (List.cons_ne_nil x (y :: l))] at ih ⊢
    omega

theorem joinLen_pos (sl : Nat) :
    ∀ l : List String, l ≠ [] → (∀ x ∈ l, x ≠ "") → 0 < joinLen sl l
  | [], h, _ => absurd rfl h
  | [x], _, hx => by
    have := str_ne_len_pos x (hx x (by simp))
    simpa [joinLen] using this
  | x :: y :: l, _, hx => by
    have := str_ne_len_pos x (hx x (by simp))
    simp only [joinLen]
    omega

theorem splits_ne_empty (c : Char) (text : String) :
    ∀ s ∈ split_text_with_regex c text, s ≠ "" := by
  intro s hs
  have h := List.mem_filter.mp hs
  simpa using h.2

end PaperBlog

namespace PaperBlog

/-! ## The while-loop specification -/

theorem popDocs_spec (cs co sl dl : Nat) :
    ∀ (l : List String) (total : Nat), total = joinLen sl l →
      (popDocs cs co sl dl l total).1 <:+ l ∧
      (popDocs cs co sl dl l total).2 = joinLen sl (popDocs cs co sl dl l total).1 ∧
      (popDocs cs co sl dl l total).2 ≤ co ∧
      ((popDocs cs co sl dl l total).1 = [] ∨
        (popDocs cs co sl dl l total).2 + dl + sl ≤ cs ∨
        (popDocs cs co sl dl l total).2 = 0)
  | [], total, h => by
    have h0 : total = 0 := h
    subst h0
    exact ⟨List.suffix_refl _, rfl, Nat.zero_le _, Or.inl rfl⟩
  | x :: rest, total, h => by
    by_cases hc : co < total ∨ (cs < total + dl + sl ∧ 0 < total)
    · have hstep : total - (x.length + if rest = [] then 0 else sl)
          = joinLen sl rest := by
        cases rest with
        | nil => simp only [joinLen] at h ⊢; omega
        | cons y l =>
          simp only [joinLen, if_neg (List.cons_ne_nil y l)] at h ⊢
          omega
      have ih := popDocs_spec cs co sl dl rest
        (total - (x.length + if rest = [] then 0 else sl)) hstep
      simp only [popDocs, if_pos hc]
      exact ⟨ih.1.trans (List.suffix_cons x rest), ih.2.1, ih.2.2.1, ih.2.2.2⟩
    · simp only [popDocs, if_neg hc]
      push_neg at hc
      refine ⟨List.suffix_refl _, h, by omega, by omega⟩

/-! ## Trace lemmas: head window, reconstruction -/

theorem trace_head_pre (cs co sl : Nat) :
    ∀ (ds cd : List String) (total : Nat) (q : List String × List String),
      (merge_docs_trace cs co sl cd total ds).head? = some q → cd <+: q.1
  | [], cd, _, q => by
    cases cd with
    | nil => intro h; simp [merge_docs_trace] at h
    | cons x xs =>
      intro h
      simp only [merge_docs_trace, List.head?_cons, Option.some.injEq] at h
      subst h
      exact List.prefix_refl _
  | d :: ds, cd, total, q => by
    intro h
    by_cases hc : cs < total + d.length + (if cd = [] then 0 else sl)
    · cases cd with
      | nil =>
        exact ⟨q.1, rfl⟩
      | cons x xs =>
        simp only [merge_docs_trace, if_pos hc, List.head?_cons,
          Option.some.injEq] at h
        subst h
        exact List.prefix_refl _
    · simp only [merge_docs_trace, if_neg hc] at h
      have ih := trace_head_pre cs co sl ds (cd ++ [d]) _ q h
      exact (List.prefix_append cd [d]).trans ih

theorem trace_reconstruct (cs co sl : Nat) :
    ∀ (ds cd : List String) (total : Nat) (r : List String), r <+: cd →
      reconstructFrom r (merge_docs_trace cs co sl cd total ds) =
        cd.drop r.length ++ ds
  | [], cd, total, r, hr => by
    cases cd with
    | nil =>
      have h0 : r = [] := List.prefix_nil.mp hr
      subst h0
      simp [merge_docs_trace, reconstructFrom]
    | cons x xs =>
      simp [merge_docs_trace, reconstructFrom]
  | d :: ds, cd, total, r, hr => by
    by_cases hc : cs < total + d.length + (if cd = [] then 0 else sl)
    · cases cd with
      | nil =>
        have h0 : r = [] := List.prefix_nil.mp hr
        subst h0
        simp only [merge_docs_trace, if_pos hc]
        have ih := trace_reconstruct cs co sl ds [d] (total + d.length)
          [] ⟨[d], rfl⟩
        simpa using ih
      | cons x xs =>
        simp only [merge_docs_trace, if_pos hc, reconstructFrom]
        have ih := trace_reconstruct cs co sl ds
          ((popDocs cs co sl d.length (x :: xs) total).1 ++ [d])
          ((popDocs cs co sl d.length (x :: xs) total).2 + d.length +
            (if (popDocs cs co sl d.length (x :: xs) total).1 = []
              then 0 else sl))
          (popDocs cs co sl d.length (x :: xs) total).1
          (List.prefix_append _ _)
        rw [ih, List.drop_left]
        rfl
    · simp only [merge_docs_trace, if_neg hc]
      have ih := trace_reconstruct cs co sl ds (cd ++ [d])
        (total + d.length + (if cd = [] then 0 else sl)) r
        (hr.trans (List.prefix_append cd [d]))
      rw [ih, List.drop_append_eq_append_drop,
        Nat.sub_eq_zero_of_le hr.length_le]
      simp

end PaperBlog

namespace PaperBlog

/-! ## Definitional unfolding helpers for the merge loop -/

theorem trace_flush_nil (cs co sl total : Nat) (d : String) (ds : List String)
    (hc : cs < total + d.length) :
    merge_docs_trace cs co sl [] total (d :: ds) =
      merge_docs_trace cs co sl [d] (total + d.length) ds :=
  if_pos hc

theorem trace_flush_cons (cs co sl total : Nat) (d : String) (ds : List String)
    (x : String) (xs : List String) (hc : cs < total + d.length + sl) :
    merge_docs_trace cs co sl (x :: xs) total (d :: ds) =
      (x :: xs, (popDocs cs co sl d.length (x :: xs) total).1) ::
        merge_docs_trace cs co sl
          ((popDocs cs co sl d.length (x :: xs) total).1 ++ [d])
          ((popDocs cs co sl d.length (x :: xs) total).2 + d.length +
            (if (popDocs cs co sl d.length (x :: xs) total).1 = []
              then 0 else sl))
          ds :=
  if_pos hc

theorem trace_noflush (cs co sl total : Nat) (d : String) (ds cd : List String)
    (hc : ¬ cs < total + d.length + (if cd = [] then 0 else sl)) :
    merge_docs_trace cs co sl cd total (d :: ds) =
      merge_docs_trace cs co sl (cd ++ [d])
        (total + d.length + (if cd = [] then 0 else sl)) ds :=
  if_neg hc

theorem msplits_flush_nil (cs co : Nat) (sep : String) (total : Nat)
    (d : String) (ds : List String) (hc : cs < total + d.length) :
    merge_splits cs co sep [] total (d :: ds) =
      merge_splits cs co sep [d] (total + d.length) ds :=
  if_pos hc

theorem msplits_flush_cons (cs co : Nat) (sep : String) (total : Nat)
    (d : String) (ds : List String) (x : String) (xs : List String)
    (hc : cs < total + d.length + sep.length) :
    merge_splits cs co sep (x :: xs) total (d :: ds) =
      emitJoin sep (x :: xs)
        (merge_splits cs co sep
          ((popDocs cs co sep.length d.length (x :: xs) total).1 ++ [d])
          ((popDocs cs co sep.length d.length (x :: xs) total).2 + d.length +
            (if (popDocs cs co sep.length d.length (x :: xs) total).1 = []
              then 0 else sep.length))
          ds) :=
  if_pos hc

theorem msplits_noflush (cs co : Nat) (sep : String) (total : Nat)
    (d : String) (ds cd : List String)
    (hc : ¬ cs < total + d.length + (if cd = [] then 0 else sep.length)) :
    merge_splits cs co sep cd total (d :: ds) =
      merge_splits cs co sep (cd ++ [d])
        (total + d.length + (if cd = [] then 0 else sep.length)) ds :=
  if_neg hc

end PaperBlog

namespace PaperBlog

/-! ## Trace lemmas: overlap chain and chunk-size bound -/

theorem trace_chain (cs co sl : Nat) :
    ∀ (ds cd : List String) (total : Nat), total = joinLen sl cd →
      List.Chain' (fun p q : List String × List String =>
        p.2 <:+ p.1 ∧ p.2 <+: q.1 ∧ joinLen sl p.2 ≤ co)
        (merge_docs_trace cs co sl cd total ds)
  | [], cd, total, h => by
    cases cd with
    | nil => simp [merge_docs_trace]
    | cons x xs => simp [merge_docs_trace]
  | d :: ds, cd, total, h => by
    cases cd with
    | nil =>
      by_cases hc : cs < total + d.length
      · rw [trace_flush_nil cs co sl total d ds hc]
        refine trace_chain cs co sl ds [d] (total + d.length) ?_
        have h0 : total = 0 := h
        simp [joinLen, h0]
      · rw [trace_noflush cs co sl total d ds [] hc]
        refine trace_chain cs co sl ds [d] _ ?_
        have h0 : total = 0 := h
        simp [joinLen, h0]
    | cons x xs =>
      by_cases hc : cs < total + d.length + sl
      · have hp := popDocs_spec cs co sl d.length (x :: xs) total h
        rw [trace_flush_cons cs co sl total d ds x xs hc]
        rw [List.chain'_cons']
        constructor
        · intro q hq
          have hqp := trace_head_pre cs co sl ds
            ((popDocs cs co sl d.length (x :: xs) total).1 ++ [d]) _ q hq
          refine ⟨hp.1, (List.prefix_append _ [d]).trans hqp, ?_⟩
          rw [← hp.2.1]
          exact hp.2.2.1
        · refine trace_chain cs co sl ds _ _ ?_
          rw [joinLen_append_one, ← hp.2.1]
      · rw [trace_noflush cs co sl total d ds (x :: xs) hc]
        refine trace_chain cs co sl ds ((x :: xs) ++ [d]) _ ?_
        rw [joinLen_append_one, ← h]

theorem trace_size_le (cs co sl : Nat) :
    ∀ (ds : List String), (∀ d ∈ ds, d ≠ "" ∧ d.length ≤ cs) →
      ∀ (cd : List String) (total : Nat), total = joinLen sl cd → total ≤ cs →
      (∀ x ∈ cd, x ≠ "") →
      ∀ p ∈ merge_docs_trace cs co sl cd total ds, joinLen sl p.1 ≤ cs
  | [], _, cd, total, hinv, hle, _, p, hp => by
    cases cd with
    | nil => simp [merge_docs_trace] at hp
    | cons x xs =>
      simp only [merge_docs_trace, List.mem_singleton] at hp
      subst hp
      rw [← hinv]
      exact hle
  | d :: ds, hds, cd, total, hinv, hle, hcd, p, hp => by
    have hd := hds d (by simp)
    have hds' : ∀ e ∈ ds, e ≠ "" ∧ e.length ≤ cs :=
      fun e he => hds e (by simp [he])
    cases cd with
    | nil =>
      have h0 : total = 0 := hinv
      by_cases hc : cs < total + d.length
      · rw [trace_flush_nil cs co sl total d ds hc] at hp
        refine trace_size_le cs co sl ds hds' [d] (total + d.length)
          (by simp [joinLen, h0]) (by omega) ?_ p hp
        intro y hy
        rw [List.mem_singleton] at hy
        subst hy
        exact hd.1
      · rw [trace_noflush cs co sl total d ds [] hc] at hp
        have hc' : total + d.length ≤ cs := by
          have := Nat.not_lt.mp hc
          omega
        refine trace_size_le cs co sl ds hds' ([] ++ [d])
          (total + d.length + (if ([] : List String) = [] then 0 else sl))
          (by simp [joinLen, h0]) (by simpa using hc') ?_ p hp
        intro y hy
        simp only [List.nil_append, List.mem_singleton] at hy
        subst hy
        exact hd.1
    | cons x xs =>
      by_cases hc : cs < total + d.length + sl
      · have hp' := popDocs_spec cs co sl d.length (x :: xs) total hinv
        rw [trace_flush_cons cs co sl total d ds x xs hc] at hp
        rw [List.mem_cons] at hp
        rcases hp with rfl | hp
        · rw [← hinv]
          exact hle
        · have hsub : ∀ y ∈ (popDocs cs co sl d.length (x :: xs) total).1,
              y ≠ "" := fun y hy => hcd y (hp'.1.subset hy)
          have hnew : (popDocs cs co sl d.length (x :: xs) total).2 + d.length +
              (if (popDocs cs co sl d.length (x :: xs) total).1 = []
                then 0 else sl) ≤ cs := by
            by_cases hnil : (popDocs cs co sl d.length (x :: xs) total).1 = []
            · have h2 : (popDocs cs co sl d.length (x :: xs) total).2 = 0 := by
                rw [hp'.2.1, hnil]
                rfl
              rw [if_pos hnil, h2]
              omega
            · rw [if_neg hnil]
              rcases hp'.2.2.2 with h1 | h1 | h1
              · exact absurd h1 hnil
              · omega
              · exfalso
                have hpos := joinLen_pos sl _ hnil hsub
                have h2 := hp'.2.1
                omega
          refine trace_size_le cs co sl ds hds'
            ((popDocs cs co sl d.length (x :: xs) total).1 ++ [d])
            ((popDocs cs co sl d.length (x :: xs) total).2 + d.length +
              (if (popDocs cs co sl d.length (x :: xs) total).1 = []
                then 0 else sl))
            ?_ hnew ?_ p hp
          · rw [joinLen_append_one, ← hp'.2.1]
          · intro y hy
            rcases List.mem_append.mp hy with hy | hy
            · exact hsub y hy
            · rw [List.mem_singleton] at hy
              subst hy
              exact hd.1
      · rw [trace_noflush cs co sl total d ds (x :: xs) hc] at hp
        have hfit : total + d.length + sl ≤ cs := Nat.not_lt.mp hc
        refine trace_size_le cs co sl ds hds' ((x :: xs) ++ [d])
          (total + d.length + (if (x :: xs : List String) = [] then 0 else sl))
          ?_ ?_ ?_ p hp
        · rw [joinLen_append_one, ← hinv]
        · rw [if_neg (List.cons_ne_nil x xs)]
          omega
        · intro y hy
          rcases List.mem_append.mp hy with hy | hy
          · exact hcd y hy
          · rw [List.mem_singleton] at hy
            subst hy
            exact hd.1

/-! ## `merge_splits` is the join of the instrumented trace -/

theorem merge_splits_eq_trace (cs co : Nat) (sep : String) :
    ∀ (ds cd : List String) (total : Nat),
      merge_splits cs co sep cd total ds =
        (merge_docs_trace cs co sep.length cd total ds).filterMap
          (fun p => join_docs sep p.1)
  | [], cd, total => by
    cases cd with
    | nil => rfl
    | cons x xs =>
      show emitJoin sep (x :: xs) [] = _
      cases hj : join_docs sep (x :: xs) <;>
        simp [emitJoin, List.filterMap_cons, hj, merge_docs_trace]
  | d :: ds, cd, total => by
    cases cd with
    | nil =>
      by_cases hc : cs < total + d.length
      · rw [msplits_flush_nil cs co sep total d ds hc,
          trace_flush_nil cs co sep.length total d ds hc]
        exact merge_splits_eq_trace cs co sep ds [d] (total + d.length)
      · rw [msplits_noflush cs co sep total d ds [] hc,
          trace_noflush cs co sep.length total d ds [] hc]
        exact merge_splits_eq_trace cs co sep ds ([] ++ [d]) _
    | cons x xs =>
      by_cases hc : cs < total + d.length + sep.length
      · have ih := merge_splits_eq_trace cs co sep ds
          ((popDocs cs co sep.length d.length (x :: xs) total).1 ++ [d])
          ((popDocs cs co sep.length d.length (x :: xs) total).2 + d.length +
            (if (popDocs cs co sep.length d.length (x :: xs) total).1 = []
              then 0 else sep.length))
        rw [msplits_flush_cons cs co sep total d ds x xs hc,
          trace_flush_cons cs co sep.length total d ds x xs hc,
          List.filterMap_cons]
        cases hj : join_docs sep (x :: xs) <;> simp [emitJoin, hj, ih]
      · rw [msplits_noflush cs co sep total d ds (x :: xs) hc,
          trace_noflush cs co sep.length total d ds (x :: xs) hc]
        exact merge_splits_eq_trace cs co sep ds ((x :: xs) ++ [d]) _

end PaperBlog

namespace PaperBlog

/-! ## Instantiation at the app's configuration -/

theorem get_text_chunks_eq (text : String) :
    get_text_chunks text =
      (chunk_trace text).filterMap (fun p => join_docs "\n" p.1) := by
  have h := merge_splits_eq_trace 1000 200 "\n"
    (split_text_with_regex '\n' text) [] 0
  have hl : ("\n" : String).length = 1 := rfl
  rw [get_text_chunks, chunk_trace, ← hl]
  exact h

/-! ## Page extraction lemmas -/

theorem extract_pages_ok (acc : String) :
    ∀ ps : List String,
      extract_pages acc (ps.map Option.some) = (acc ++ concatAll ps, [])
  | [] => by simp [extract_pages, concatAll]
  | t :: ts => by
    have ih := extract_pages_ok (acc ++ t) ts
    simp only [List.map_cons, extract_pages, concatAll, ih,
      String.append_assoc]

theorem extract_pages_fail (acc : String) :
    ∀ (ps : List String) (rest : List (Option String)),
      extract_pages acc (ps.map Option.some ++ Option.none :: rest) =
        (acc ++ concatAll ps, ["Error extracting text from PDF."])
  | [], rest => by simp [extract_pages, concatAll]
  | t :: ts, rest => by
    have ih := extract_pages_fail (acc ++ t) ts rest
    rw [String.append_assoc] at ih
    simpa [extract_pages, concatAll] using ih

end PaperBlog

namespace PaperBlog

/-! ## Claim theorems: chunking -/

/-- C1: for every input text, chunking with separator newline, chunk size
1000, overlap 200 and character length produces an ordered chunk sequence
in which (given the splitter edge-case proviso that no separator-free
segment exceeds 1000 characters) every chunk is at most 1000 characters
long, and every pair of consecutive chunk windows shares a retained block
of overlapping fragments whose joined length is at most 200 characters —
the shared block being a suffix of the earlier window and, verbatim, a
front segment of the later window.  The final conjunct ties the windows to
the produced chunks: `get_text_chunks` is exactly the joined, stripped,
nonempty windows of the trace. -/
theorem C1_chunk_size_and_overlap (text : String)
    (h : ∀ s ∈ split_text_with_regex '\n' text, s.length ≤ 1000) :
    (∀ c ∈ get_text_chunks text, c.length ≤ 1000) ∧
    List.Chain' (fun p q : List String × List String =>
      p.2 <:+ p.1 ∧ p.2 <+: q.1 ∧ joinLen 1 p.2 ≤ 200) (chunk_trace text) ∧
    get_text_chunks text =
      (chunk_trace text).filterMap (fun p => join_docs "\n" p.1) := by
  refine ⟨?_, ?_, get_text_chunks_eq text⟩
  · intro c hc
    rw [get_text_chunks_eq] at hc
    obtain ⟨p, hp, hj⟩ := List.mem_filterMap.mp hc
    have hsize := trace_size_le 1000 200 1 (split_text_with_regex '\n' text)
      (fun d hd => ⟨splits_ne_empty '\n' text d hd, h d hd⟩)
      [] 0 rfl (by omega) (by simp) p hp
    have hc' : c = pyStrip (joinSep "\n" p.1) := by
      by_cases hz : pyStrip (joinSep "\n" p.1) = ""
      · rw [join_docs, if_pos hz] at hj
        simp at hj
      · rw [join_docs, if_neg hz] at hj
        exact (Option.some.inj hj).symm
    calc c.length = (pyStrip (joinSep "\n" p.1)).length := by rw [hc']
      _ ≤ (joinSep "\n" p.1).length := pyStrip_length_le _
      _ = joinLen 1 p.1 := joinSep_length "\n" p.1
      _ ≤ 1000 := hsize
  · exact trace_chain 1000 200 1 (split_text_with_regex '\n' text) [] 0 rfl

/-- Witness for C1 at the concrete input `"hello\nworld"`. -/
theorem C1_witness :
    (∀ s ∈ split_text_with_regex '\n' "hello\nworld", s.length ≤ 1000) ∧
    ((∀ c ∈ get_text_chunks "hello\nworld", c.length ≤ 1000) ∧
     List.Chain' (fun p q : List String × List String =>
       p.2 <:+ p.1 ∧ p.2 <+: q.1 ∧ joinLen 1 p.2 ≤ 200)
       (chunk_trace "hello\nworld") ∧
     get_text_chunks "hello\nworld" =
       (chunk_trace "hello\nworld").filterMap (fun p => join_docs "\n" p.1)) :=
  ⟨by decide, C1_chunk_size_and_overlap "hello\nworld" (by decide)⟩

/-- C2 counterexample: on the input `" a"` the chunker produces the single
chunk `"a"`, whose concatenation (there is no overlap to remove from a
one-chunk sequence) is `"a"`, which is not the original text `" a"` — the
splitter drops empty segments, renormalizes separators and strips
whitespace, so concatenating chunks with the overlap removed does not
reconstruct the input exactly. -/
theorem C2_counterexample :
    get_text_chunks " a" = ["a"] ∧
    concatAll (get_text_chunks " a") = "a" ∧
    (" a" : String) ≠ "a" := by
  refine ⟨by decide, by decide, by decide⟩

/-- C2 amended: concatenating the chunk windows with each window's
retained overlap removed reconstructs the sequence of nonempty
newline-separated segments of the input (not the input text itself:
empty segments, repeated separators and surrounding whitespace are lost);
the produced chunks are exactly the joined, stripped, nonempty windows. -/
theorem C2_amended_segment_reconstruction (text : String) :
    reconstructFrom [] (chunk_trace text) = split_text_with_regex '\n' text ∧
    get_text_chunks text =
      (chunk_trace text).filterMap (fun p => join_docs "\n" p.1) := by
  constructor
  · have h := trace_reconstruct 1000 200 1 (split_text_with_regex '\n' text)
      [] 0 [] (List.prefix_refl [])
    simpa [chunk_trace] using h
  · exact get_text_chunks_eq text

/-- C9: chunking is deterministic — the chunker is a pure function of the
input text, so identical inputs yield identical chunk sequences. -/
theorem C9_chunking_deterministic (t1 t2 : String) (h : t1 = t2) :
    get_text_chunks t1 = get_text_chunks t2 := by rw [h]

/-- Witness for C9 at the concrete input `"alpha\nbeta"`. -/
theorem C9_witness :
    get_text_chunks "alpha\nbeta" = get_text_chunks "alpha\nbeta" :=
  C9_chunking_deterministic "alpha\nbeta" "alpha\nbeta" rfl

/-! ## Claim theorems: PDF extraction -/

/-- C3: for every text-bearing PDF that opens and whose pages all extract
(`pages.map Option.some`), extraction returns exactly the ordered
concatenation of the page texts with no error reported, and that text is
non-empty when the concatenation is non-empty. -/
theorem C3_extraction_concat (pages : List String)
    (h : concatAll pages ≠ "") :
    get_pdf_text (PdfSource.doc (pages.map Option.some)) =
      (concatAll pages, []) ∧
    (get_pdf_text (PdfSource.doc (pages.map Option.some))).1 ≠ "" := by
  have e : get_pdf_text (PdfSource.doc (pages.map Option.some)) =
      (concatAll pages, []) := by
    rw [get_pdf_text, extract_pages_ok]
    exact rfl
  exact ⟨e, by rw [e]; exact h⟩

/-- Witness for C3 at a one-page document containing `"Hello world."`. -/
theorem C3_witness :
    concatAll ["Hello world."] ≠ "" ∧
    (get_pdf_text (PdfSource.doc (["Hello world."].map Option.some)) =
        (concatAll ["Hello world."], []) ∧
      (get_pdf_text
        (PdfSource.doc (["Hello world."].map Option.some))).1 ≠ "") :=
  ⟨by decide, C3_extraction_concat ["Hello world."] (by decide)⟩

/-- C4 counterexample: a document whose first page extracts to
`"Page one."` and whose second page raises makes `get_pdf_text` report the
error but return the partially accumulated non-empty text `"Page one."`,
not the empty string — the accumulation variable lives outside the `try`
block. -/
theorem C4_counterexample :
    get_pdf_text (PdfSource.doc [Option.some "Page one.", Option.none]) =
      ("Page one.", ["Error extracting text from PDF."]) ∧
    ("Page one." : String) ≠ "" :=
  ⟨rfl, by decide⟩

/-- C4 amended: if the PDF cannot be opened, extraction reports the error
and returns the empty string; if a page raises mid-extraction, the error
is reported and the text accumulated from the earlier pages — possibly
non-empty — is returned.  In both cases the exception is caught rather
than propagated. -/
theorem C4_amended_extraction_failure (done : List String)
    (rest : List (Option String)) :
    get_pdf_text PdfSource.openFail =
      ("", ["Error extracting text from PDF."]) ∧
    get_pdf_text (PdfSource.doc (done.map Option.some ++ Option.none :: rest)) =
      (concatAll done, ["Error extracting text from PDF."]) := by
  refine ⟨rfl, ?_⟩
  rw [get_pdf_text, extract_pages_fail]
  exact rfl

end PaperBlog

namespace PaperBlog

/-! ## Claim theorems: the upload handler -/

/-- C5: whenever extraction yields the empty string, the run reports
"No text could be extracted from the PDF." and performs no chunking, no
indexing and no summarization: no chunks are built, no vectorstore call is
made, no query is issued, and nothing is displayed or downloadable. -/
theorem C5_empty_text_halts (env : Env)
    (h : (get_pdf_text env.pdf).1 = "") :
    "No text could be extracted from the PDF." ∈ (upload_handler env).errors ∧
    (upload_handler env).chunking_called = false ∧
    (upload_handler env).text_chunks = [] ∧
    (upload_handler env).indexing_called = false ∧
    (upload_handler env).summarization_called = false ∧
    (upload_handler env).queries = [] ∧
    (upload_handler env).blog_summary = Option.none ∧
    (upload_handler env).displayed = Option.none ∧
    (upload_handler env).download = Option.none := by
  simp only [upload_handler]
  rw [if_pos h]
  simp

/-- Witness for C5 at a PDF that fails to open. -/
theorem C5_witness :
    ((get_pdf_text (Env.mk PdfSource.openFail true (Option.some "s")).pdf).1
        = "") ∧
    ("No text could be extracted from the PDF." ∈
      (upload_handler (Env.mk PdfSource.openFail true
        (Option.some "s"))).errors ∧
     (upload_handler (Env.mk PdfSource.openFail true
        (Option.some "s"))).chunking_called = false ∧
     (upload_handler (Env.mk PdfSource.openFail true
        (Option.some "s"))).text_chunks = [] ∧
     (upload_handler (Env.mk PdfSource.openFail true
        (Option.some "s"))).indexing_called = false ∧
     (upload_handler (Env.mk PdfSource.openFail true
        (Option.some "s"))).summarization_called = false ∧
     (upload_handler (Env.mk PdfSource.openFail true
        (Option.some "s"))).queries = [] ∧
     (upload_handler (Env.mk PdfSource.openFail true
        (Option.some "s"))).blog_summary = Option.none ∧
     (upload_handler (Env.mk PdfSource.openFail true
        (Option.some "s"))).displayed = Option.none ∧
     (upload_handler (Env.mk PdfSource.openFail true
        (Option.some "s"))).download = Option.none) :=
  ⟨rfl, C5_empty_text_halts (Env.mk PdfSource.openFail true
    (Option.some "s")) rfl⟩

/-- C6: when the embedding model cannot be loaded, the indexer returns a
null vectorstore, the user-facing embedding error is reported, and the run
never reaches summarization: no query is issued and nothing is displayed
or downloadable — no partial index is used. -/
theorem C6_embedding_failure (env : Env)
    (h1 : (get_pdf_text env.pdf).1 ≠ "") (h2 : env.embeddingOk = false) :
    (upload_handler env).vectorstore = Option.none ∧
    embeddingErrorMsg ∈ (upload_handler env).errors ∧
    (upload_handler env).summarization_called = false ∧
    (upload_handler env).queries = [] ∧
    (upload_handler env).blog_summary = Option.none ∧
    (upload_handler env).displayed = Option.none ∧
    (upload_handler env).download = Option.none := by
  simp only [upload_handler]
  rw [if_neg h1]
  simp [get_vectorstore, h2]

/-- Witness for C6 at a one-page document with a failing embedding load. -/
theorem C6_witness :
    ((get_pdf_text (Env.mk (PdfSource.doc [Option.some "T"]) false
        (Option.some "s")).pdf).1 ≠ "") ∧
    ((upload_handler (Env.mk (PdfSource.doc [Option.some "T"]) false
        (Option.some "s"))).vectorstore = Option.none ∧
     embeddingErrorMsg ∈ (upload_handler (Env.mk
        (PdfSource.doc [Option.some "T"]) false (Option.some "s"))).errors ∧
     (upload_handler (Env.mk (PdfSource.doc [Option.some "T"]) false
        (Option.some "s"))).summarization_called = false ∧
     (upload_handler (Env.mk (PdfSource.doc [Option.some "T"]) false
        (Option.some "s"))).queries = [] ∧
     (upload_handler (Env.mk (PdfSource.doc [Option.some "T"]) false
        (Option.some "s"))).blog_summary = Option.none ∧
     (upload_handler (Env.mk (PdfSource.doc [Option.some "T"]) false
        (Option.some "s"))).displayed = Option.none ∧
     (upload_handler (Env.mk (PdfSource.doc [Option.some "T"]) false
        (Option.some "s"))).download = Option.none) :=
  ⟨by decide, C6_embedding_failure (Env.mk (PdfSource.doc [Option.some "T"])
    false (Option.some "s")) (by decide) rfl⟩

end PaperBlog

namespace PaperBlog

/-- C7 counterexample: a run whose LLM call succeeds but returns the empty
string reports no error at all, yet shows no summary and offers no
download — so "displayed and downloadable exactly when summarization
succeeds" fails: the guard tests the truthiness of the result, not the
success of the call. -/
theorem C7_counterexample :
    (upload_handler (Env.mk (PdfSource.doc [Option.some "T"]) true
      (Option.some ""))).summarization_called = true ∧
    (upload_handler (Env.mk (PdfSource.doc [Option.some "T"]) true
      (Option.some ""))).blog_summary = Option.some "" ∧
    (upload_handler (Env.mk (PdfSource.doc [Option.some "T"]) true
      (Option.some ""))).errors = [] ∧
    (upload_handler (Env.mk (PdfSource.doc [Option.some "T"]) true
      (Option.some ""))).displayed = Option.none ∧
    (upload_handler (Env.mk (PdfSource.doc [Option.some "T"]) true
      (Option.some ""))).download = Option.none :=
  ⟨rfl, rfl, rfl, rfl, rfl⟩

/-- C7 amended: the summarizer returns the model's generated text, or null
with a user-facing error on failure; the summary is displayed and offered
for download as `summary.txt` (`text/plain`, content verbatim) exactly
when summarization succeeds with a *non-empty* result; on failure — and
likewise on an empty successful result — nothing is shown or offered. -/
theorem C7_summary_display (env : Env)
    (h1 : (get_pdf_text env.pdf).1 ≠ "") (h2 : env.embeddingOk = true) :
    (env.llmResponse = Option.none →
      "Error generating summary." ∈ (upload_handler env).errors ∧
      (upload_handler env).blog_summary = Option.none ∧
      (upload_handler env).displayed = Option.none ∧
      (upload_handler env).download = Option.none) ∧
    (∀ s : String, env.llmResponse = Option.some s →
      (upload_handler env).blog_summary = Option.some s) ∧
    (∀ s : String, env.llmResponse = Option.some s → s ≠ "" →
      (upload_handler env).displayed = Option.some s ∧
      (upload_handler env).download =
        Option.some (DownloadFile.mk "summary.txt" "text/plain" s)) ∧
    (env.llmResponse = Option.some "" →
      (upload_handler env).displayed = Option.none ∧
      (upload_handler env).download = Option.none) := by
  refine ⟨?_, ?_, ?_, ?_⟩
  · intro h3
    simp only [upload_handler]
    rw [if_neg h1]
    simp [get_vectorstore, h2, h3]
  · intro s h3
    simp only [upload_handler]
    rw [if_neg h1]
    simp [get_vectorstore, h2, h3]
  · intro s h3 hs
    simp only [upload_handler]
    rw [if_neg h1]
    simp [get_vectorstore, h2, h3, hs]
  · intro h3
    simp only [upload_handler]
    rw [if_neg h1]
    simp [get_vectorstore, h2, h3]

/-- Witness for C7 at a one-page document and a successful LLM call. -/
theorem C7_witness :
    ((get_pdf_text (Env.mk (PdfSource.doc [Option.some "T"]) true
        (Option.some "A fine summary.")).pdf).1 ≠ "") ∧
    (((Env.mk (PdfSource.doc [Option.some "T"]) true
        (Option.some "A fine summary.")).llmResponse = Option.none →
      "Error generating summary." ∈ (upload_handler (Env.mk
        (PdfSource.doc [Option.some "T"]) true
        (Option.some "A fine summary."))).errors ∧
      (upload_handler (Env.mk (PdfSource.doc [Option.some "T"]) true
        (Option.some "A fine summary."))).blog_summary = Option.none ∧
      (upload_handler (Env.mk (PdfSource.doc [Option.some "T"]) true
        (Option.some "A fine summary."))).displayed = Option.none ∧
      (upload_handler (Env.mk (PdfSource.doc [Option.some "T"]) true
        (Option.some "A fine summary."))).download = Option.none) ∧
     (∀ s : String, (Env.mk (PdfSource.doc [Option.some "T"]) true
        (Option.some "A fine summary.")).llmResponse = Option.some s →
      (upload_handler (Env.mk (PdfSource.doc [Option.some "T"]) true
        (Option.some "A fine summary."))).blog_summary = Option.some s) ∧
     (∀ s : String, (Env.mk (PdfSource.doc [Option.some "T"]) true
        (Option.some "A fine summary.")).llmResponse = Option.some s →
        s ≠ "" →
      (upload_handler (Env.mk (PdfSource.doc [Option.some "T"]) true
        (Option.some "A fine summary."))).displayed = Option.some s ∧
      (upload_handler (Env.mk (PdfSource.doc [Option.some "T"]) true
        (Option.some "A fine summary."))).download =
          Option.some (DownloadFile.mk "summary.txt" "text/plain" s)) ∧
     ((Env.mk (PdfSource.doc [Option.some "T"]) true
        (Option.some "A fine summary.")).llmResponse = Option.some "" →
      (upload_handler (Env.mk (PdfSource.doc [Option.some "T"]) true
        (Option.some "A fine summary."))).displayed = Option.none ∧
      (upload_handler (Env.mk (PdfSource.doc [Option.some "T"]) true
        (Option.some "A fine summary."))).download = Option.none)) :=
  ⟨by decide, C7_summary_display (Env.mk (PdfSource.doc [Option.some "T"])
    true (Option.some "A fine summary.")) (by decide) rfl⟩

/-- C8: every run that reaches summarization issues exactly one query —
the entire extracted document text — and configures the ChatGroq client
with the fixed model identifier, temperature 0.7 and a 30-second request
timeout. -/
theorem C8_single_query_and_config (env : Env)
    (h : (upload_handler env).summarization_called = true) :
    (upload_handler env).queries = [(get_pdf_text env.pdf).1] ∧
    (upload_handler env).llm_config = Option.some groqConfig ∧
    groqConfig.model_name = "meta-llama/llama-4-scout-17b-16e-instruct" ∧
    groqConfig.temperature = (7 : ℚ) / 10 ∧
    groqConfig.request_timeout = 30 := by
  by_cases h1 : (get_pdf_text env.pdf).1 = ""
  · exfalso
    simp only [upload_handler] at h
    rw [if_pos h1] at h
    simp at h
  · by_cases h2 : env.embeddingOk = true
    · cases h3 : env.llmResponse with
      | none =>
        refine ⟨?_, ?_, rfl, rfl, rfl⟩ <;>
          (simp only [upload_handler]; rw [if_neg h1];
            simp [get_vectorstore, h2, h3])
      | some s =>
        refine ⟨?_, ?_, rfl, rfl, rfl⟩ <;>
          (simp only [upload_handler]; rw [if_neg h1];
            simp [get_vectorstore, h2, h3])
    · exfalso
      rw [Bool.not_eq_true] at h2
      simp only [upload_handler] at h
      rw [if_neg h1] at h
      simp [get_vectorstore, h2] at h

/-- Witness for C8 at a one-page document and a successful run. -/
theorem C8_witness :
    ((upload_handler (Env.mk (PdfSource.doc [Option.some "T"]) true
        (Option.some "x"))).summarization_called = true) ∧
    ((upload_handler (Env.mk (PdfSource.doc [Option.some "T"]) true
        (Option.some "x"))).queries =
      [(get_pdf_text (Env.mk (PdfSource.doc [Option.some "T"]) true
        (Option.some "x")).pdf).1] ∧
     (upload_handler (Env.mk (PdfSource.doc [Option.some "T"]) true
        (Option.some "x"))).llm_config = Option.some groqConfig ∧
     groqConfig.model_name = "meta-llama/llama-4-scout-17b-16e-instruct" ∧
     groqConfig.temperature = (7 : ℚ) / 10 ∧
     groqConfig.request_timeout = 30) :=
  ⟨rfl, C8_single_query_and_config (Env.mk (PdfSource.doc [Option.some "T"])
    true (Option.some "x")) rfl⟩

/-- C10: when the summarization call succeeds but returns the empty
string, the run reaches summarization, records the empty summary, shows
nothing, offers no download, and (extraction and indexing having
succeeded cleanly) reports no error message at all: the display guard
tests truthiness of the result, not success of the call. -/
theorem C10_empty_summary_silent (env : Env)
    (h1 : (get_pdf_text env.pdf).1 ≠ "") (h2 : env.embeddingOk = true)
    (h3 : env.llmResponse = Option.some "")
    (h4 : (get_pdf_text env.pdf).2 = []) :
    (upload_handler env).summarization_called = true ∧
    (upload_handler env).blog_summary = Option.some "" ∧
    (upload_handler env).displayed = Option.none ∧
    (upload_handler env).download = Option.none ∧
    (upload_handler env).errors = [] := by
  simp only [upload_handler]
  rw [if_neg h1]
  simp [get_vectorstore, h2, h3, h4]

/-- Witness for C10 at a one-page document and an empty LLM result. -/
theorem C10_witness :
    ((get_pdf_text (Env.mk (PdfSource.doc [Option.some "T"]) true
        (Option.some "")).pdf).1 ≠ "") ∧
    ((upload_handler (Env.mk (PdfSource.doc [Option.some "T"]) true
        (Option.some ""))).summarization_called = true ∧
     (upload_handler (Env.mk (PdfSource.doc [Option.some "T"]) true
        (Option.some ""))).blog_summary = Option.some "" ∧
     (upload_handler (Env.mk (PdfSource.doc [Option.some "T"]) true
        (Option.some ""))).displayed = Option.none ∧
     (upload_handler (Env.mk (PdfSource.doc [Option.some "T"]) true
        (Option.some ""))).download = Option.none ∧
     (upload_handler (Env.mk (PdfSource.doc [Option.some "T"]) true
        (Option.some ""))).errors = []) :=
  ⟨by decide, C10_empty_summary_silent (Env.mk
    (PdfSource.doc [Option.some "T"]) true (Option.some ""))
    (by decide) rfl rfl rfl⟩

end PaperBlog
